import Mathlib

/-!
Shallow embedding of `src/routes/books.js`: a books CRUD router over a
lowdb (lodash-chain) collection.

Modelling decisions, each traced to the source:

* A JSON value is `JVal`; a JS object is an insertion-ordered association
  list `Obj` with JS property-write semantics (`objSet` updates an existing
  key in place, else appends).
* `objAssign target src` is `Object.assign` / object-spread semantics:
  each field of `src` is written onto `target` in order.  The POST handler
  builds `{ id: nanoid(8), ...req.body }`, i.e.
  `objAssign [("id", gen)] body` — so a body `id` field overwrites the
  generated one (spread comes after the id).
* lodash `find({id: x})` returns the first record whose `id` property
  deep-equals the string `x` (`findBook`); `assign` on the found wrapper
  shallow-merges in place and is null-safe (a lookup miss is a no-op),
  modelled by `assignFirst`; lodash `remove({id: x})` removes EVERY
  matching record, modelled by `removeBooks` as a filter.
* A handler is a function from the collection (plus request data) to the
  pair (collection after, list of response actions).  `Resp.sendStatus n`
  is `res.sendStatus(n)`; `Resp.send b` is `res.send(b)` where the body is
  the JS value handed to Express: a plain object, an array, `undefined`,
  or an unresolved lodash chain wrapper (`RespBody.handle`) — the PUT
  handler sends `db.get("books").find({id})` without `.value()`.
* `serializeBody` is what Express puts on the wire: `JSON.stringify`
  resolves a lodash wrapper through its `toJSON` (= `wrapperValue`), so a
  handle wrapping a record serializes to that record and a handle wrapping
  `undefined` (like `undefined` itself) serializes to an empty body.
-/

/-- A JSON value as stored in the flat-file collection. -/
inductive JVal where
  | str : String → JVal
  | num : Int → JVal
  | bool : Bool → JVal
  | null : JVal
deriving DecidableEq, Repr

/-- A JS object: insertion-ordered association list of fields. -/
abbrev Obj : Type := List (String × JVal)

/-- The books collection (`db.get("books")`), in storage order. -/
abbrev Coll : Type := List Obj

/-- JS property read `o[k]`: first (unique, in real JS objects) occurrence. -/
def objGet : Obj → String → Option JVal
  | [], _ => none
  | (k2, v2) :: rest, k => if k2 = k then some v2 else objGet rest k

/-- JS property write `o[k] = v`: update the existing key in place, else append. -/
def objSet : Obj → String → JVal → Obj
  | [], k, v => [(k, v)]
  | (k2, v2) :: rest, k, v =>
    if k2 = k then (k, v) :: rest else (k2, v2) :: objSet rest k v

/-- `Object.assign(target, src)` / spread: write each field of `src` onto
`target` in order.  Used by the POST spread and by lodash `.assign`. -/
def objAssign (target src : Obj) : Obj :=
  src.foldl (fun acc p => objSet acc p.1 p.2) target

/-- lodash matcher `{ id: i }` against a record: its `id` property equals
the path-parameter string (`req.params.id` is always a string). -/
def matchesId (b : Obj) (i : String) : Bool :=
  objGet b "id" = some (JVal.str i)

/-- `db.get("books").find({ id: i }).value()`: first matching record. -/
def findBook (books : Coll) (i : String) : Option Obj :=
  books.find? (fun b => matchesId b i)

/-- `find({id}).assign(body)` on the chain: shallow-merge `body` onto the
first matching record, in place; lodash `assign` is null-safe, so a lookup
miss leaves the collection unchanged. -/
def assignFirst : Coll → String → Obj → Coll
  | [], _, _ => []
  | b :: rest, i, body =>
    if matchesId b i then objAssign b body :: rest
    else b :: assignFirst rest i body

/-- lodash `remove({ id: i })`: removes every matching record. -/
def removeBooks (books : Coll) (i : String) : Coll :=
  books.filter (fun b => !(matchesId b i))

/-- The value Express is handed by `res.send` / `res.sendStatus`. -/
inductive RespBody where
  | obj : Obj → RespBody
  | arr : Coll → RespBody
  | undef : RespBody
  | handle : Option Obj → RespBody
deriving DecidableEq, Repr

/-- One response action performed by a handler. -/
inductive Resp where
  | sendStatus : Nat → Resp
  | send : RespBody → Resp
deriving DecidableEq, Repr

/-- The JSON body Express serializes onto the wire. -/
inductive Wire where
  | jobj : Obj → Wire
  | jarr : Coll → Wire
  | empty : Wire
deriving DecidableEq, Repr

/-- Wire serialization: a lodash chain wrapper resolves through `toJSON`
(`lodash.prototype.toJSON = wrapperValue`), `undefined` gives an empty body. -/
def serializeBody : RespBody → Wire
  | .obj o => .jobj o
  | .arr a => .jarr a
  | .undef => .empty
  | .handle (some o) => .jobj o
  | .handle none => .empty

/-- `router.get("/")` (src/routes/books.js:54-57): send the whole collection. -/
def getAllHandler (books : Coll) : Coll × List Resp :=
  (books, [Resp.send (RespBody.arr books)])

/-- `router.get("/:id")` (src/routes/books.js:83-89): find by id; on a miss
the source calls `res.sendStatus(404)` and then still falls through to
`res.send(book)` with `book === undefined` (no early return). -/
def getByIdHandler (books : Coll) (i : String) : Coll × List Resp :=
  match findBook books i with
  | none => (books, [Resp.sendStatus 404, Resp.send RespBody.undef])
  | some b => (books, [Resp.send (RespBody.obj b)])

/-- `router.post("/")` (src/routes/books.js:114-125): build
`{ id: nanoid(8), ...req.body }` (the spread comes second, so a body `id`
overwrites the generated one), push, persist, send the new record.
`gen` stands for the `nanoid(idLength)` token of this request. -/
def postHandler (books : Coll) (gen : String) (body : Obj) : Coll × List Resp :=
  let newBook := objAssign [("id", JVal.str gen)] body
  (books ++ [newBook], [Resp.send (RespBody.obj newBook)])

/-- `router.put("/:id")` (src/routes/books.js:155-167): shallow-merge the
body onto the first record matching the path id (no-op on a miss), persist,
then send the chain `db.get("books").find({id})` — an unresolved wrapper,
re-queried by the ORIGINAL path id against the post-merge collection. -/
def putHandler (books : Coll) (i : String) (body : Obj) : Coll × List Resp :=
  let books2 := assignFirst books i body
  (books2, [Resp.send (RespBody.handle (findBook books2 i))])

/-- `router.delete("/:id")` (src/routes/books.js:191-198): remove every
record matching the path id, persist, `res.sendStatus(200)`. -/
def deleteHandler (books : Coll) (i : String) : Coll × List Resp :=
  (removeBooks books i, [Resp.sendStatus 200])

/-- The `id` column of the collection, in storage order. -/
def idsOf (books : Coll) : List (Option JVal) :=
  books.map (fun b => objGet b "id")

/-- Length of the array the List endpoint sends (the count a client sees). -/
def listLen (books : Coll) : Nat :=
  match (getAllHandler books).2 with
  | [Resp.send (RespBody.arr a)] => a.length
  | _ => 0

/-! ### Lemmas about JS object reads, writes and shallow merge -/

theorem objGet_objSet_self (o : Obj) (k : String) (v : JVal) :
    objGet (objSet o k v) k = some v := by
  induction o with
  | nil => simp [objSet, objGet]
  | cons p rest ih =>
    obtain ⟨k2, v2⟩ := p
    by_cases h : k2 = k
    · simp [objSet, objGet, h]
    · simp [objSet, objGet, h, ih]

theorem objGet_objSet_ne (o : Obj) (k2 k : String) (v : JVal) (h : k2 ≠ k) :
    objGet (objSet o k2 v) k = objGet o k := by
  induction o with
  | nil => simp [objSet, objGet, h]
  | cons p rest ih =>
    obtain ⟨k3, v3⟩ := p
    by_cases h3 : k3 = k2
    · subst h3
      simp [objSet, objGet, h]
    · by_cases h4 : k3 = k
      · subst h4
        simp [objSet, objGet, h3]
      · simp [objSet, objGet, h3, h4, ih]

theorem objAssign_cons (t : Obj) (k : String) (v : JVal) (src : Obj) :
    objAssign t ((k, v) :: src) = objAssign (objSet t k v) src := rfl

theorem objGet_objAssign_none (t src : Obj) (k : String) (h : objGet src k = none) :
    objGet (objAssign t src) k = objGet t k := by
  induction src generalizing t with
  | nil => rfl
  | cons p rest ih =>
    obtain ⟨k2, v2⟩ := p
    have hk : k2 ≠ k := by
      intro he
      simp [objGet, he] at h
    have hr : objGet rest k = none := by
      simpa [objGet, hk] using h
    rw [objAssign_cons, ih _ hr, objGet_objSet_ne _ _ _ _ hk]

theorem objGet_eq_none_of_not_mem (o : Obj) (k : String)
    (h : k ∉ o.map Prod.fst) : objGet o k = none := by
  induction o with
  | nil => rfl
  | cons p rest ih =>
    obtain ⟨k2, v2⟩ := p
    simp only [List.map_cons, List.mem_cons] at h
    push_neg at h
    have hk : k2 ≠ k := fun he => h.1 he.symm
    simp [objGet, hk, ih h.2]

theorem objGet_objAssign_some (t src : Obj) (k : String) (v : JVal)
    (hn : (src.map Prod.fst).Nodup) (h : objGet src k = some v) :
    objGet (objAssign t src) k = some v := by
  induction src generalizing t with
  | nil => simp [objGet] at h
  | cons p rest ih =>
    obtain ⟨k2, v2⟩ := p
    simp only [List.map_cons, List.nodup_cons] at hn
    rw [objAssign_cons]
    by_cases hk : k2 = k
    · subst hk
      have hv : v2 = v := by simpa [objGet] using h
      subst hv
      have hr : objGet rest k2 = none := objGet_eq_none_of_not_mem _ _ hn.1
      rw [objGet_objAssign_none _ _ _ hr, objGet_objSet_self]
    · have hr : objGet rest k = some v := by simpa [objGet, hk] using h
      exact ih (objSet t k2 v2) hn.2 hr

/-! ### Lemmas about the collection operations -/

theorem assignFirst_no_match (books : Coll) (i : String) (body : Obj)
    (h : ∀ b ∈ books, matchesId b i = false) :
    assignFirst books i body = books := by
  induction books with
  | nil => rfl
  | cons b rest ih =>
    have hb := h b (List.mem_cons_self _ _)
    simp [assignFirst, hb, ih fun x hx => h x (List.mem_cons_of_mem _ hx)]

theorem assignFirst_decomp (pre post : Coll) (b : Obj) (i : String) (body : Obj)
    (hpre : ∀ x ∈ pre, matchesId x i = false) (hb : matchesId b i = true) :
    assignFirst (pre ++ b :: post) i body = pre ++ objAssign b body :: post := by
  induction pre with
  | nil => simp [assignFirst, hb]
  | cons x rest ih =>
    have hx := hpre x (List.mem_cons_self _ _)
    simp [assignFirst, hx, ih fun y hy => hpre y (List.mem_cons_of_mem _ hy)]

theorem findBook_decomp (pre post : Coll) (b : Obj) (i : String)
    (hpre : ∀ x ∈ pre, matchesId x i = false) (hb : matchesId b i = true) :
    findBook (pre ++ b :: post) i = some b := by
  induction pre with
  | nil => simp [findBook, List.find?, hb]
  | cons x rest ih =>
    have hx := hpre x (List.mem_cons_self _ _)
    simpa [findBook, List.find?, hx] using
      ih fun y hy => hpre y (List.mem_cons_of_mem _ hy)

theorem idsOf_assignFirst (books : Coll) (i : String) (body : Obj)
    (h : objGet body "id" = none) :
    idsOf (assignFirst books i body) = idsOf books := by
  induction books with
  | nil => rfl
  | cons b rest ih =>
    cases hb : matchesId b i with
    | true => simp [assignFirst, hb, idsOf, objGet_objAssign_none _ _ _ h]
    | false =>
      simpa [assignFirst, hb, idsOf] using ih

/-! ### Claim C1: Create and the generated id -/

/-- C1 counterexample: a Create whose body carries an `id` field stores and
returns that body id — the spread `{ id: nanoid(8), ...req.body }` lets the
body overwrite the generated token ("abcdefgh" here). -/
theorem claim_C1_counterexample :
    (postHandler [] "abcdefgh" [("id", JVal.str "evil"), ("title", JVal.str "T")]).1 =
      [[("id", JVal.str "evil"), ("title", JVal.str "T")]] ∧
    objGet [("id", JVal.str "evil"), ("title", JVal.str "T")] "id" ≠
      some (JVal.str "abcdefgh") :=
  ⟨rfl, by decide⟩

/-- C1 (amended): when the request body contains no `id` field, the record
stored and returned by Create carries exactly the freshly generated token as
its id, and it is appended to the collection. -/
theorem claim_C1_amended (books : Coll) (gen : String) (body : Obj)
    (h : objGet body "id" = none) :
    (postHandler books gen body).1 =
      books ++ [objAssign [("id", JVal.str gen)] body] ∧
    objGet (objAssign [("id", JVal.str gen)] body) "id" = some (JVal.str gen) ∧
    (postHandler books gen body).2 =
      [Resp.send (RespBody.obj (objAssign [("id", JVal.str gen)] body))] := by
  refine ⟨rfl, ?_, rfl⟩
  rw [objGet_objAssign_none _ _ _ h]
  rfl

/-- C1 witness: the amended theorem applied to a concrete body lacking `id`. -/
theorem claim_C1_witness :
    objGet [("title", JVal.str "Dune")] "id" = none ∧
    objGet (objAssign [("id", JVal.str "abc123xy")] [("title", JVal.str "Dune")]) "id" =
      some (JVal.str "abc123xy") :=
  ⟨by decide, (claim_C1_amended [] "abc123xy" [("title", JVal.str "Dune")] (by decide)).2.1⟩

/-! ### Claim C2: the Update response body -/

/-- C2 counterexample: Update on existing id "a1" with body `{id:"b2"}`
stores the post-merge record `{id:"b2", title:"T"}`, but the handler
re-queries by the original path id, finds nothing, and the wire body is
empty — not the materialized post-merge record. -/
theorem claim_C2_counterexample :
    (putHandler [[("id", JVal.str "a1"), ("title", JVal.str "T")]] "a1"
        [("id", JVal.str "b2")]).1 =
      [[("id", JVal.str "b2"), ("title", JVal.str "T")]] ∧
    (putHandler [[("id", JVal.str "a1"), ("title", JVal.str "T")]] "a1"
        [("id", JVal.str "b2")]).2 = [Resp.send (RespBody.handle none)] ∧
    serializeBody (RespBody.handle none) ≠
      Wire.jobj [("id", JVal.str "b2"), ("title", JVal.str "T")] :=
  ⟨rfl, rfl, by decide⟩

/-- C2 (amended): for an Update on an existing id whose body does not change
the record's id (no `id` field, or one equal to the path id), the stored
record is the shallow merge and the wire body serializes to exactly that
post-merge record (the lodash wrapper resolves through `toJSON`). -/
theorem claim_C2_amended (pre post : Coll) (b body : Obj) (i : String)
    (hb : matchesId b i = true) (hpre : ∀ x ∈ pre, matchesId x i = false)
    (hn : (body.map Prod.fst).Nodup)
    (hid : objGet body "id" = none ∨ objGet body "id" = some (JVal.str i)) :
    (putHandler (pre ++ b :: post) i body).1 = pre ++ objAssign b body :: post ∧
    (putHandler (pre ++ b :: post) i body).2 =
      [Resp.send (RespBody.handle (some (objAssign b body)))] ∧
    serializeBody (RespBody.handle (some (objAssign b body))) =
      Wire.jobj (objAssign b body) := by
  have hstate := assignFirst_decomp pre post b i body hpre hb
  have hmerged : matchesId (objAssign b body) i = true := by
    simp only [matchesId, decide_eq_true_eq] at hb ⊢
    cases hid with
    | inl h0 => rw [objGet_objAssign_none _ _ _ h0]; exact hb
    | inr h1 => exact objGet_objAssign_some _ _ _ _ hn h1
  have hfind := findBook_decomp pre post (objAssign b body) i hpre hmerged
  exact ⟨by simp [putHandler, hstate], by simp [putHandler, hstate, hfind], rfl⟩

/-- C2 witness: the amended theorem at a concrete state and body. -/
theorem claim_C2_witness :
    (putHandler ([] ++ [("id", JVal.str "a1"), ("title", JVal.str "T")] :: []) "a1"
        [("author", JVal.str "H")]).2 =
      [Resp.send (RespBody.handle (some (objAssign
        [("id", JVal.str "a1"), ("title", JVal.str "T")] [("author", JVal.str "H")])))] :=
  (claim_C2_amended [] [] [("id", JVal.str "a1"), ("title", JVal.str "T")]
    [("author", JVal.str "H")] "a1" (by decide) (by decide) (by decide)
    (Or.inl (by decide))).2.1

/-! ### Claim C3: id immutability and uniqueness -/

/-- C3 counterexample: an Update whose body carries an `id` field changes the
stored record's id — lodash `assign` overwrites `id` like any other field. -/
theorem claim_C3_counterexample :
    idsOf ((putHandler [[("id", JVal.str "a1")]] "a1" [("id", JVal.str "zzz")]).1) =
      [some (JVal.str "zzz")] ∧
    idsOf [[("id", JVal.str "a1")]] = [some (JVal.str "a1")] ∧
    JVal.str "zzz" ≠ JVal.str "a1" :=
  ⟨rfl, rfl, by decide⟩

/-- C3 (amended): provided the request bodies carry no `id` field and the
generated token is fresh, the id column is preserved by Update, and Create
appends exactly the generated id, keeping the ids unique. -/
theorem claim_C3_amended (books : Coll) (pid gen : String) (pbody cbody : Obj)
    (hp : objGet pbody "id" = none) (hc : objGet cbody "id" = none)
    (hu : (idsOf books).Nodup) (hfresh : some (JVal.str gen) ∉ idsOf books) :
    idsOf (putHandler books pid pbody).1 = idsOf books ∧
    idsOf (postHandler books gen cbody).1 = idsOf books ++ [some (JVal.str gen)] ∧
    (idsOf (postHandler books gen cbody).1).Nodup := by
  have h1 : idsOf (putHandler books pid pbody).1 = idsOf books :=
    idsOf_assignFirst books pid pbody hp
  have h2 : objGet (objAssign [("id", JVal.str gen)] cbody) "id" =
      some (JVal.str gen) := by
    rw [objGet_objAssign_none _ _ _ hc]; rfl
  have h3 : idsOf (postHandler books gen cbody).1 =
      idsOf books ++ [some (JVal.str gen)] := by
    simp [postHandler, idsOf, h2]
  refine ⟨h1, h3, ?_⟩
  rw [h3, List.nodup_append]
  refine ⟨hu, List.nodup_singleton _, ?_⟩
  intro a ha
  simp only [List.mem_singleton]
  intro he
  subst he
  exact hfresh ha

/-- C3 witness: the amended theorem at a concrete one-record collection. -/
theorem claim_C3_witness :
    idsOf (putHandler [[("id", JVal.str "a1")]] "a1" [("title", JVal.str "T")]).1 =
      idsOf [[("id", JVal.str "a1")]] ∧
    (idsOf (postHandler [[("id", JVal.str "a1")]] "b2" [("title", JVal.str "U")]).1).Nodup :=
  ⟨(claim_C3_amended [[("id", JVal.str "a1")]] "a1" "b2" [("title", JVal.str "T")]
      [("title", JVal.str "U")] (by decide) (by decide) (by decide) (by decide)).1,
   (claim_C3_amended [[("id", JVal.str "a1")]] "a1" "b2" [("title", JVal.str "T")]
      [("title", JVal.str "U")] (by decide) (by decide) (by decide) (by decide)).2.2⟩

/-! ### Claim C4: Get-by-id on a missing id -/

/-- C4 (code defect, at the failing input): on a lookup miss the source calls
`res.sendStatus(404)` and then, lacking an early return, still performs a
second send of the undefined body — two response actions are attempted, not
exactly one 404-with-empty-body response. -/
theorem claim_C4_code_behavior :
    (getByIdHandler [] "missing").2 =
      [Resp.sendStatus 404, Resp.send RespBody.undef] ∧
    ((getByIdHandler [] "missing").2).length = 2 :=
  ⟨rfl, rfl⟩

/-! ### Claim C5: Update on an existing id is a shallow merge -/

/-- C5: for an Update whose path id matches record `b` (first match), the
stored collection replaces `b` by the shallow merge of `b` with the body:
every body field reads back as the body value, every other field keeps the
prior value. -/
theorem claim_C5 (pre post : Coll) (b body : Obj) (i : String)
    (hb : matchesId b i = true) (hpre : ∀ x ∈ pre, matchesId x i = false)
    (hn : (body.map Prod.fst).Nodup) :
    (putHandler (pre ++ b :: post) i body).1 = pre ++ objAssign b body :: post ∧
    (∀ k v, objGet body k = some v → objGet (objAssign b body) k = some v) ∧
    (∀ k, objGet body k = none → objGet (objAssign b body) k = objGet b k) :=
  ⟨by simp [putHandler, assignFirst_decomp pre post b i body hpre hb],
   fun k v h => objGet_objAssign_some b body k v hn h,
   fun k h => objGet_objAssign_none b body k h⟩

/-- C5 witness: concrete merge of `{author:"FH"}` onto `{id,title,author}`. -/
theorem claim_C5_witness :
    (putHandler ([] ++ [("id", JVal.str "a1"), ("title", JVal.str "D"),
        ("author", JVal.str "H")] :: []) "a1" [("author", JVal.str "FH")]).1 =
      [] ++ objAssign [("id", JVal.str "a1"), ("title", JVal.str "D"),
        ("author", JVal.str "H")] [("author", JVal.str "FH")] :: [] :=
  (claim_C5 [] [] [("id", JVal.str "a1"), ("title", JVal.str "D"),
      ("author", JVal.str "H")] [("author", JVal.str "FH")] "a1"
    (by decide) (by decide) (by decide)).1

/-! ### Claim C6: Update on a missing id -/

/-- C6: an Update whose path id matches no record leaves the collection
unchanged (lodash `assign` on the missed lookup is null-safe) and produces
no 404 — the handler only ever sends the re-query result. -/
theorem claim_C6 (books : Coll) (i : String) (body : Obj)
    (h : ∀ b ∈ books, matchesId b i = false) :
    (putHandler books i body).1 = books ∧
    ∀ r ∈ (putHandler books i body).2, r ≠ Resp.sendStatus 404 := by
  have hs := assignFirst_no_match books i body h
  refine ⟨by simp [putHandler, hs], ?_⟩
  intro r hr
  simp only [putHandler, List.mem_singleton] at hr
  subst hr
  simp

/-- C6 witness: the theorem at a one-record collection with a different id. -/
theorem claim_C6_witness :
    (putHandler [[("id", JVal.str "b2")]] "a1" [("title", JVal.str "T")]).1 =
      [[("id", JVal.str "b2")]] :=
  (claim_C6 [[("id", JVal.str "b2")]] "a1" [("title", JVal.str "T")] (by decide)).1

/-! ### Claim C7: Delete on a missing id -/

/-- C7: a Delete whose path id matches no record leaves the collection
unchanged and still responds with a single 200 — there is no existence
check and no error. -/
theorem claim_C7 (books : Coll) (i : String)
    (h : ∀ b ∈ books, matchesId b i = false) :
    (deleteHandler books i).1 = books ∧
    (deleteHandler books i).2 = [Resp.sendStatus 200] := by
  refine ⟨?_, rfl⟩
  simp only [deleteHandler, removeBooks]
  rw [List.filter_eq_self]
  intro a ha
  simp [h a ha]

/-- C7 witness: deleting id "a1" from a collection holding only id "b2". -/
theorem claim_C7_witness :
    (deleteHandler [[("id", JVal.str "b2")]] "a1").1 = [[("id", JVal.str "b2")]] ∧
    (deleteHandler [[("id", JVal.str "b2")]] "a1").2 = [Resp.sendStatus 200] :=
  claim_C7 [[("id", JVal.str "b2")]] "a1" (by decide)

/-! ### Claim C8: which records Delete removes -/

/-- C8 counterexample: with two records sharing id "a1", Delete removes BOTH
(lodash `remove` deletes every match) — the later record does not remain. -/
theorem claim_C8_counterexample :
    (deleteHandler [[("id", JVal.str "a1")],
        [("id", JVal.str "a1"), ("title", JVal.str "X")]] "a1").1 = [] ∧
    [("id", JVal.str "a1"), ("title", JVal.str "X")] ∉
      (deleteHandler [[("id", JVal.str "a1")],
        [("id", JVal.str "a1"), ("title", JVal.str "X")]] "a1").1 :=
  ⟨rfl, by decide⟩

/-- C8 (amended): Delete removes EVERY record matching the path id — after
it no match remains, every non-matching record keeps its multiplicity, and
the surviving records keep their storage order. -/
theorem claim_C8_amended (books : Coll) (i : String) :
    (deleteHandler books i).1.countP (fun b => matchesId b i) = 0 ∧
    (deleteHandler books i).1.countP (fun b => !(matchesId b i)) =
      books.countP (fun b => !(matchesId b i)) ∧
    List.Sublist (deleteHandler books i).1 books := by
  refine ⟨?_, ?_, ?_⟩
  · rw [List.countP_eq_zero]
    intro a ha
    simp only [deleteHandler, removeBooks, List.mem_filter] at ha
    simpa using ha.2
  · simp only [deleteHandler, removeBooks, List.countP_filter, Bool.and_self]
  · exact List.filter_sublist books

/-! ### Claim C9: List counts around Create and Delete -/

theorem length_filter_not_matches (books : Coll) (i : String) :
    (books.filter (fun b => !(matchesId b i))).length +
      books.countP (fun b => matchesId b i) = books.length := by
  induction books with
  | nil => rfl
  | cons b rest ih =>
    cases hb : matchesId b i <;>
      simp [List.filter_cons, List.countP_cons, hb] <;> omega

/-- C9: the count List reports grows by exactly one after a Create, and
shrinks by exactly one after a Delete of an id held by exactly one record. -/
theorem claim_C9 (books : Coll) (gen i : String) (body : Obj)
    (h : books.countP (fun b => matchesId b i) = 1) :
    listLen (postHandler books gen body).1 = listLen books + 1 ∧
    listLen (deleteHandler books i).1 + 1 = listLen books := by
  have hl : ∀ s : Coll, listLen s = s.length := fun s => rfl
  refine ⟨by simp [hl, postHandler], ?_⟩
  rw [hl, hl]
  simp only [deleteHandler, removeBooks]
  have hsplit := length_filter_not_matches books i
  omega

/-- C9 witness: a singleton collection, Create then Delete of its only id. -/
theorem claim_C9_witness :
    listLen (postHandler [[("id", JVal.str "a1")]] "b2" [("title", JVal.str "T")]).1 =
      listLen [[("id", JVal.str "a1")]] + 1 ∧
    listLen (deleteHandler [[("id", JVal.str "a1")]] "a1").1 + 1 =
      listLen [[("id", JVal.str "a1")]] :=
  claim_C9 [[("id", JVal.str "a1")]] "b2" "a1" [("title", JVal.str "T")] (by decide)

/-! ### Claim C10: List and Get-by-id are read-only -/

/-- C10: List and Get-by-id leave the stored collection exactly as it was,
for every state and every requested id. -/
theorem claim_C10 (books : Coll) (i : String) :
    (getAllHandler books).1 = books ∧ (getByIdHandler books i).1 = books := by
  refine ⟨rfl, ?_⟩
  unfold getByIdHandler
  cases findBook books i <;> rfl
